import Mathlib

/-!
# Verification of the PageVault backend catalog core (`src/server.js`)

Shallow embedding of the PageVault backend server: the slug derivation
(`slugify`), the genre→color table, the GitHub-contents store helpers
(`getFileSHA`, `commitFileToGitHub`, `getBooksJson`, `saveBooksJson`) and the
three request handlers (`GET /api/books`, `POST /api/upload`,
`DELETE /api/books/:id`).

External JavaScript builtins used by the source are modelled explicitly:
`String.prototype.toLowerCase` (restricted to the Basic Latin and Latin-1
blocks; code points above U+00FF are left unchanged — every such code point is
removed by the subsequent character-class filter, and the source's accent map
only mentions Latin-1 letters), `String.prototype.trim` and the regex class
`\s` (the ECMAScript WhiteSpace ∪ LineTerminator set), `parseInt`,
`Number.prototype.toFixed` on megabyte sizes (exact decimal rounding, half
up), and Node's `path.extname` (for names without path separators).

Remote I/O is modelled by passing each handler the outcomes the remote host
would return for the (fixed, per-request) sequence of calls the source makes,
and each handler additionally returns the trace of remote calls it issued,
with the revision (`sha`) each write presented.
-/

/-! ## Characters: JavaScript builtins used by `slugify` -/

/-- The ECMAScript whitespace set: what `\s` matches and what
`String.prototype.trim` strips (WhiteSpace ∪ LineTerminator):
TAB LF VT FF CR SP NBSP OGHAM-SP U+2000–U+200A LS PS NNBSP MMSP IDSP ZWNBSP. -/
def jsIsWhitespace (c : Char) : Bool :=
  decide (c.toNat = 9 ∨ c.toNat = 10 ∨ c.toNat = 11 ∨ c.toNat = 12 ∨
    c.toNat = 13 ∨ c.toNat = 32 ∨ c.toNat = 160 ∨ c.toNat = 5760 ∨
    (8192 ≤ c.toNat ∧ c.toNat ≤ 8202) ∨ c.toNat = 8232 ∨ c.toNat = 8233 ∨
    c.toNat = 8239 ∨ c.toNat = 8287 ∨ c.toNat = 12288 ∨ c.toNat = 65279)

/-- `String.prototype.toLowerCase`, per character, on the Basic Latin and
Latin-1 blocks: `A`–`Z` (65–90) and `À`–`Þ` (192–222, excluding `×` = 215)
gain 32; everything else in those blocks is fixed.  Code points above U+00FF
are left unchanged (see the module comment). -/
def jsLowerChar (c : Char) : Char :=
  if 65 ≤ c.toNat ∧ c.toNat ≤ 90 then Char.ofNat (c.toNat + 32)
  else if 192 ≤ c.toNat ∧ c.toNat ≤ 222 ∧ c.toNat ≠ 215 then Char.ofNat (c.toNat + 32)
  else c

/-- `String.prototype.toLowerCase` on a whole string. -/
def jsToLowerStr (s : String) : String :=
  ⟨s.data.map jsLowerChar⟩

/-- The accent-folding replacements of `slugify`
(`.replace(/[àáâãäå]/g,'a') … .replace(/[ñ]/g,'n')`), per character.
Code points written numerically: 224–229 = àáâãäå, 232–235 = èéêë,
236–239 = ìíîï, 242–246 = òóôõö, 249–252 = ùúûü, 241 = ñ. -/
def accentFold (c : Char) : Char :=
  if 224 ≤ c.toNat ∧ c.toNat ≤ 229 then 'a'
  else if 232 ≤ c.toNat ∧ c.toNat ≤ 235 then 'e'
  else if 236 ≤ c.toNat ∧ c.toNat ≤ 239 then 'i'
  else if 242 ≤ c.toNat ∧ c.toNat ≤ 246 then 'o'
  else if 249 ≤ c.toNat ∧ c.toNat ≤ 252 then 'u'
  else if c.toNat = 241 then 'n'
  else c

/-- The character class `[a-z0-9-]`: what survives `slugify` once whitespace
has been turned into hyphens. -/
def isSlugCore (c : Char) : Bool :=
  decide (97 ≤ c.toNat ∧ c.toNat ≤ 122) ||
  decide (48 ≤ c.toNat ∧ c.toNat ≤ 57) || c == '-'

/-- The character class `[a-z0-9\s-]` kept by
`.replace(/[^a-z0-9\s-]/g,'')`. -/
def slugKeep (c : Char) : Bool :=
  isSlugCore c || jsIsWhitespace c

/-- `String.prototype.trim`: drop `jsIsWhitespace` characters from both
ends. -/
def jsTrimChars (l : List Char) : List Char :=
  ((l.dropWhile jsIsWhitespace).reverse.dropWhile jsIsWhitespace).reverse

/-- `String.prototype.trim` on a string. -/
def jsTrimStr (s : String) : String :=
  ⟨jsTrimChars s.data⟩

/-- `replace(/p+/g, r)`: every maximal run of characters satisfying `p`
becomes the single character `r`.  The flag records whether the previous
character was inside a run. -/
def collapseRunsAux (p : Char → Bool) (r : Char) : Bool → List Char → List Char
  | _, [] => []
  | inRun, c :: cs =>
    if p c then
      (if inRun then [] else [r]) ++ collapseRunsAux p r true cs
    else
      c :: collapseRunsAux p r false cs

/-- `replace(/p+/g, r)` from the start of the string. -/
def collapseRuns (p : Char → Bool) (r : Char) (l : List Char) : List Char :=
  collapseRunsAux p r false l

/-- `slugify` (`src/server.js` lines 99–106): lowercase, fold accents, strip
`[^a-z0-9\s-]`, trim, whitespace runs → `-`, hyphen runs → `-`,
`slice(0, 60)`.  At the `slice` step every character is a single UTF-16 unit,
so `slice` is `take` on characters. -/
def slugify (s : String) : String :=
  ⟨(collapseRuns (fun c => c == '-') '-'
      (collapseRuns jsIsWhitespace '-'
        (jsTrimChars
          (((s.data.map jsLowerChar).map accentFold).filter slugKeep)))).take 60⟩

/-- No two adjacent characters of the list satisfy `p`. -/
def noRun (p : Char → Bool) : List Char → Bool
  | [] => true
  | [_] => true
  | a :: b :: t => (!(p a && p b)) && noRun p (b :: t)

/-! ## Character-level facts -/

theorem isSlugCore_ranges {c : Char} (h : isSlugCore c = true) :
    (97 ≤ c.toNat ∧ c.toNat ≤ 122) ∨ (48 ≤ c.toNat ∧ c.toNat ≤ 57) ∨
      c.toNat = 45 := by
  simp only [isSlugCore, Bool.or_eq_true, decide_eq_true_eq, beq_iff_eq] at h
  rcases h with (h | h) | h
  · exact Or.inl h
  · exact Or.inr (Or.inl h)
  · subst h; exact Or.inr (Or.inr rfl)

theorem jsIsWhitespace_eq_false_of_core {c : Char} (h : isSlugCore c = true) :
    jsIsWhitespace c = false := by
  rcases isSlugCore_ranges h with h' | h' | h' <;>
    · simp only [jsIsWhitespace, decide_eq_false_iff_not]
      omega

theorem jsLowerChar_fix_of_core {c : Char} (h : isSlugCore c = true) :
    jsLowerChar c = c := by
  rcases isSlugCore_ranges h with h' | h' | h' <;>
    · unfold jsLowerChar
      rw [if_neg (by omega), if_neg (by omega)]

theorem accentFold_fix_of_core {c : Char} (h : isSlugCore c = true) :
    accentFold c = c := by
  rcases isSlugCore_ranges h with h' | h' | h' <;>
    · unfold accentFold
      rw [if_neg (by omega), if_neg (by omega), if_neg (by omega),
        if_neg (by omega), if_neg (by omega), if_neg (by omega)]

theorem slugKeep_of_core {c : Char} (h : isSlugCore c = true) :
    slugKeep c = true := by
  simp [slugKeep, h]

/-! ## `collapseRuns` facts -/

theorem mem_collapseRunsAux {p : Char → Bool} {r : Char} :
    ∀ {b : Bool} {l : List Char} {c : Char}, c ∈ collapseRunsAux p r b l →
      c = r ∨ (c ∈ l ∧ p c = false) := by
  intro b l
  induction l generalizing b with
  | nil => intro c h; simp [collapseRunsAux] at h
  | cons a t ih =>
    intro c h
    simp only [collapseRunsAux] at h
    by_cases hp : p a = true
    · rw [if_pos hp] at h
      rcases List.mem_append.mp h with h1 | h1
      · cases b with
        | true => simp at h1
        | false =>
          simp only [if_neg (by simp : ¬(false = true)), List.mem_singleton] at h1
          exact Or.inl h1
      · rcases ih h1 with h2 | h2
        · exact Or.inl h2
        · exact Or.inr ⟨List.mem_cons_of_mem _ h2.1, h2.2⟩
    · rw [if_neg hp] at h
      rcases List.mem_cons.mp h with h1 | h1
      · subst h1
        exact Or.inr ⟨List.mem_cons_self _ _, by simpa using hp⟩
      · rcases ih h1 with h2 | h2
        · exact Or.inl h2
        · exact Or.inr ⟨List.mem_cons_of_mem _ h2.1, h2.2⟩

theorem head_collapseRunsAux_true {p : Char → Bool} {r : Char} :
    ∀ {l : List Char} {c : Char},
      (collapseRunsAux p r true l).head? = some c → p c = false := by
  intro l
  induction l with
  | nil => intro c h; simp [collapseRunsAux] at h
  | cons a t ih =>
    intro c h
    simp only [collapseRunsAux] at h
    by_cases hp : p a = true
    · rw [if_pos hp] at h
      exact ih h
    · rw [if_neg hp] at h
      simp only [List.head?_cons, Option.some.injEq] at h
      subst h
      simpa using hp

theorem noRun_cons {p : Char → Bool} {x : Char} {l : List Char}
    (h1 : ∀ y, l.head? = some y → (p x && p y) = false)
    (h2 : noRun p l = true) : noRun p (x :: l) = true := by
  cases l with
  | nil => rfl
  | cons y t =>
    simp only [noRun, Bool.and_eq_true, Bool.not_eq_true']
    exact ⟨h1 y rfl, h2⟩

theorem noRun_collapseRunsAux {p : Char → Bool} {r : Char} :
    ∀ (l : List Char) (b : Bool), noRun p (collapseRunsAux p r b l) = true := by
  intro l
  induction l with
  | nil => intro b; rfl
  | cons a t ih =>
    intro b
    simp only [collapseRunsAux]
    by_cases hp : p a = true
    · rw [if_pos hp]
      cases b with
      | true => simpa using ih true
      | false =>
        simp only [if_neg (by simp : ¬(false = true)), List.singleton_append]
        apply noRun_cons
        · intro y hy
          have hpy := head_collapseRunsAux_true hy
          simp [hpy]
        · exact ih true
    · rw [if_neg hp]
      simp only [Bool.not_eq_true] at hp
      apply noRun_cons
      · intro y _
        simp [hp]
      · exact ih false

theorem collapseRunsAux_id_of_none {p : Char → Bool} {r : Char} :
    ∀ (l : List Char) (b : Bool), (∀ c ∈ l, p c = false) →
      collapseRunsAux p r b l = l := by
  intro l
  induction l with
  | nil => intro b _; rfl
  | cons a t ih =>
    intro b h
    have ha : p a = false := h a (List.mem_cons_self a t)
    simp only [collapseRunsAux]
    rw [if_neg (by simp [ha]), ih false (fun c hc => h c (List.mem_cons_of_mem a hc))]

theorem collapseRunsAux_id {p : Char → Bool} {r : Char} :
    ∀ (l : List Char),
      (∀ c ∈ l, p c = true → c = r) → noRun p l = true →
      (collapseRunsAux p r false l = l ∧
        ((∀ y, l.head? = some y → p y = false) → collapseRunsAux p r true l = l)) := by
  intro l
  induction l with
  | nil => exact fun _ _ => ⟨rfl, fun _ => rfl⟩
  | cons a t ih =>
    intro hall hnr
    have hall' : ∀ c ∈ t, p c = true → c = r :=
      fun c hc => hall c (List.mem_cons_of_mem a hc)
    have hnr' : noRun p t = true := by
      cases t with
      | nil => rfl
      | cons y u =>
        simp only [noRun, Bool.and_eq_true] at hnr ⊢
        exact hnr.2
    obtain ⟨ihf, iht⟩ := ih hall' hnr'
    constructor
    · by_cases hp : p a = true
      · have har : a = r := hall a (List.mem_cons_self a t) hp
        have hth : ∀ y, t.head? = some y → p y = false := by
          intro y hy
          cases t with
          | nil => simp at hy
          | cons z u =>
            simp only [List.head?_cons, Option.some.injEq] at hy
            subst hy
            simp only [noRun, Bool.and_eq_true, Bool.not_eq_true'] at hnr
            have := hnr.1
            simpa [hp] using this
        simp only [collapseRunsAux]
        rw [if_pos hp]
        simp only [if_neg (by simp : ¬(false = true)), List.singleton_append]
        rw [iht hth, ← har]
      · simp only [collapseRunsAux]
        rw [if_neg hp, ihf]
    · intro hhead
      have hpa : p a = false := hhead a rfl
      simp only [collapseRunsAux]
      rw [if_neg (by simp [hpa]), ihf]

theorem noRun_take {p : Char → Bool} :
    ∀ (l : List Char) (n : Nat), noRun p l = true → noRun p (l.take n) = true := by
  intro l
  induction l with
  | nil => intro n _; rw [List.take_nil]; rfl
  | cons a t ih =>
    intro n h
    cases n with
    | zero => rfl
    | succ m =>
      have ht : noRun p t = true := by
        cases t with
        | nil => rfl
        | cons z u =>
          simp only [noRun, Bool.and_eq_true] at h
          exact h.2
      rw [List.take_succ_cons]
      apply noRun_cons
      · intro y hy
        cases t with
        | nil => simp at hy
        | cons z u =>
          cases m with
          | zero => simp at hy
          | succ k =>
            rw [List.take_succ_cons, List.head?_cons] at hy
            cases hy
            simp only [noRun, Bool.and_eq_true, Bool.not_eq_true'] at h
            exact h.1
      · exact ih m ht

/-! ## `slugify` structure -/

theorem dropWhile_eq_self_of_none {p : Char → Bool} {l : List Char}
    (h : ∀ c ∈ l, p c = false) : l.dropWhile p = l := by
  cases l with
  | nil => rfl
  | cons a t =>
    rw [List.dropWhile_cons, h a (List.mem_cons_self a t)]
    simp

theorem jsTrimChars_subset (l : List Char) : ∀ c ∈ jsTrimChars l, c ∈ l := by
  intro c hc
  unfold jsTrimChars at hc
  rw [List.mem_reverse] at hc
  have h1 := (List.dropWhile_sublist jsIsWhitespace).subset hc
  rw [List.mem_reverse] at h1
  exact (List.dropWhile_sublist jsIsWhitespace).subset h1

theorem jsTrimChars_eq_self {l : List Char}
    (h : ∀ c ∈ l, jsIsWhitespace c = false) : jsTrimChars l = l := by
  unfold jsTrimChars
  rw [dropWhile_eq_self_of_none h,
    dropWhile_eq_self_of_none (fun c hc => h c (List.mem_reverse.mp hc)),
    List.reverse_reverse]

theorem slugify_data (s : String) :
    (slugify s).data =
      (collapseRuns (fun c => c == '-') '-'
        (collapseRuns jsIsWhitespace '-'
          (jsTrimChars
            (((s.data.map jsLowerChar).map accentFold).filter slugKeep)))).take 60 := rfl

theorem slugify_mem_core (s : String) :
    ∀ c ∈ (slugify s).data, isSlugCore c = true := by
  intro c hc
  rw [slugify_data] at hc
  have hc2 := List.take_subset _ _ hc
  rcases mem_collapseRunsAux hc2 with h | h
  · subst h; rfl
  · rcases mem_collapseRunsAux h.1 with h2 | h2
    · subst h2; rfl
    · have h3 := jsTrimChars_subset _ _ h2.1
      have h4 : slugKeep c = true := (List.mem_filter.mp h3).2
      have h6 : isSlugCore c = true ∨ jsIsWhitespace c = true := by
        simpa [slugKeep] using h4
      rcases h6 with h5 | h5
      · exact h5
      · exact absurd h5 (by simp [h2.2])

theorem slugify_noRun (s : String) :
    noRun (fun c => c == '-') (slugify s).data = true := by
  rw [slugify_data]
  exact noRun_take _ 60 (noRun_collapseRunsAux _ false)

theorem slugify_len_le (s : String) : (slugify s).data.length ≤ 60 := by
  rw [slugify_data]
  exact List.length_take_le _ _

/-- A string whose characters are all in `[a-z0-9-]`, with no two adjacent
hyphens and length at most 60, is a fixed point of `slugify`. -/
theorem slugify_of_fixed {t : String}
    (hcore : ∀ c ∈ t.data, isSlugCore c = true)
    (hnr : noRun (fun c => c == '-') t.data = true)
    (hlen : t.data.length ≤ 60) : slugify t = t := by
  have hws : ∀ c ∈ t.data, jsIsWhitespace c = false :=
    fun c hc => jsIsWhitespace_eq_false_of_core (hcore c hc)
  have hlow : t.data.map jsLowerChar = t.data := by
    have h : ∀ c ∈ t.data, jsLowerChar c = id c :=
      fun c hc => jsLowerChar_fix_of_core (hcore c hc)
    simpa using List.map_congr_left h
  have hacc : t.data.map accentFold = t.data := by
    have h : ∀ c ∈ t.data, accentFold c = id c :=
      fun c hc => accentFold_fix_of_core (hcore c hc)
    simpa using List.map_congr_left h
  have hfil : t.data.filter slugKeep = t.data :=
    List.filter_eq_self.mpr (fun c hc => slugKeep_of_core (hcore c hc))
  have hcol2 : collapseRuns (fun c => c == '-') '-' t.data = t.data := by
    have hr : ∀ c ∈ t.data, (c == '-') = true → c = '-' :=
      fun c _ h => by simpa [beq_iff_eq] using h
    exact (collapseRunsAux_id _ hr hnr).1
  unfold slugify collapseRuns
  rw [hlow, hacc, hfil, jsTrimChars_eq_self hws]
  rw [show collapseRunsAux jsIsWhitespace '-' false t.data = t.data from
    collapseRunsAux_id_of_none _ false hws]
  rw [show collapseRunsAux (fun c => c == '-') '-' false t.data = t.data from hcol2]
  rw [List.take_of_length_le hlen]

/-- C5: `slugify` is idempotent — for every input string `s`,
`slugify (slugify s) = slugify s`. -/
theorem slugify_idempotent (s : String) : slugify (slugify s) = slugify s :=
  slugify_of_fixed (slugify_mem_core s) (slugify_noRun s) (slugify_len_le s)

/-- C6 (amended): every character of `slugify`'s output lies in `[a-z0-9-]`
(so the output is lowercased, accent-free and whitespace-free), no two
adjacent output characters are hyphens, and the output length is at most 60.
Leading and trailing hyphens are not removed (only whitespace is trimmed), so
the output may begin or end with a hyphen. -/
theorem slugify_output_properties (s : String) :
    (slugify s).data.all isSlugCore = true ∧
    noRun (fun c => c == '-') (slugify s).data = true ∧
    (slugify s).length ≤ 60 :=
  ⟨List.all_eq_true.mpr (slugify_mem_core s), slugify_noRun s, slugify_len_le s⟩

/-- C6 counterexample: `slugify` does not trim leading or trailing hyphens —
`slugify "-a"` is `"-a"`, whose first character is a hyphen, contradicting
the claim that the output never begins with a hyphen. -/
theorem slugify_keeps_edge_hyphen :
    slugify "-a" = "-a" ∧ (slugify "-a").data.head? = some '-' :=
  ⟨rfl, rfl⟩

/-! ## Data model and JavaScript helpers for the handlers -/

/-- JavaScript `parseInt(s)` (radix unspecified): skip leading whitespace,
optional sign, an optional `0x`/`0X` prefix selecting radix 16, then the
longest prefix of digits; `none` models `NaN` (no digits).  Float precision
loss for very large inputs is not modelled. -/
def jsParseInt (s : String) : Option Int :=
  let l := s.data.dropWhile jsIsWhitespace
  let sign : Int := if l.head? = some '-' then -1 else 1
  let l := if l.head? = some '-' ∨ l.head? = some '+' then l.tail else l
  if l.head? = some '0' ∧ (l.tail.head? = some 'x' ∨ l.tail.head? = some 'X') then
    let hx := (l.tail.tail).takeWhile (fun c =>
      decide (48 ≤ c.toNat ∧ c.toNat ≤ 57) ||
      decide (97 ≤ c.toNat ∧ c.toNat ≤ 102) ||
      decide (65 ≤ c.toNat ∧ c.toNat ≤ 70))
    if hx = [] then none
    else some (sign * (hx.foldl (fun a c =>
      a * 16 + Int.ofNat (if c.toNat ≤ 57 then c.toNat - 48
        else if c.toNat ≤ 70 then c.toNat - 55 else c.toNat - 87)) 0))
  else
    let ds := l.takeWhile (fun c => decide (48 ≤ c.toNat ∧ c.toNat ≤ 57))
    if ds = [] then none
    else some (sign * (ds.foldl (fun a c => a * 10 + Int.ofNat (c.toNat - 48)) 0))

/-- One catalog entry, with the fields `newBook` carries
(`src/server.js` lines 155–168).  Entries decoded from the fetched
`books.json` may lack a numeric `id` (the source guards with `b.id || 0`),
hence `id : Option Int`; a JSON `null` year and a `NaN` year both serialize
to `null` and are modelled as `none`. -/
structure Book where
  id : Option Int
  title : String
  author : String
  genre : String
  year : Option Int
  language : String
  size : String
  format : String
  description : String
  file : String
  color : String
  uploadedAt : String
deriving DecidableEq

/-- What `JSON.parse` yields for the base64-decoded `books.json` content. -/
inductive CatalogContent where
  /-- content is not well-formed JSON; `JSON.parse` throws with this
  message. -/
  | malformed (errMsg : String)
  /-- content is well-formed JSON but `Array.isArray` is false. -/
  | jsonNonArray
  /-- content is a JSON array of book records. -/
  | jsonArray (books : List Book)
deriving DecidableEq

/-- Outcome of `GET <base>/books.json?ref=<branch>`. -/
inductive CatalogFetch where
  | notFound
  | ok (content : CatalogContent) (sha : String)
  | httpError (status : Nat)
deriving DecidableEq

/-- Outcome of `GET <base>/<filePath>?ref=<branch>` for a blob path. -/
inductive BlobFetch where
  | notFound
  | ok (sha : String)
  | httpError (status : Nat) (body : String)
deriving DecidableEq

/-- Outcome of a `PUT` to the contents API. -/
inductive PutResult where
  | ok
  | httpError (status : Nat) (body : String)
deriving DecidableEq

/-- A remote-store round trip made by a handler, with the revision (`sha`)
presented on writes. -/
inductive RemoteCall where
  | getFile (path : String)
  | putFile (path : String) (shaPresented : Option String)
deriving DecidableEq

/-- JavaScript truthiness of a nullable string (`null`, `undefined` and `""`
are falsy). -/
def jsTruthyStr : Option String → Bool
  | none => false
  | some s => !s.isEmpty

/-- The `sha` field of the `PUT` body: `...(sha ? { sha } : {})`
(`src/server.js` line 78) — the field is present exactly when the passed
`sha` is truthy. -/
def presentedSha (sha : Option String) : Option String :=
  if jsTruthyStr sha then sha else none

/-- `a || d` for strings. -/
def jsOrElse (a d : String) : String :=
  if a = "" then d else a

/-- `o[k] || d` for a nullable string. -/
def jsOrOptStr (o : Option String) (d : String) : String :=
  match o with
  | some s => if s = "" then d else s
  | none => d

/-- `getFileSHA` (`src/server.js` lines 68–74): `null` on 404, the object's
`sha` on 200, a thrown `GitHub SHA error: <status> <body>` otherwise. -/
def getFileSHA : BlobFetch → Except String (Option String)
  | .notFound => .ok none
  | .httpError st body =>
      .error ("GitHub SHA error: " ++ toString st ++ " " ++ body)
  | .ok sha => .ok (some sha)

/-- `commitFileToGitHub` (`src/server.js` lines 76–82): non-2xx responses
throw `GitHub commit failed (<status>): <body>`.  The `sha` presented in the
request body is recorded separately in the call trace via `presentedSha`. -/
def commitFileToGitHub : PutResult → Except String Unit
  | .ok => .ok ()
  | .httpError st body =>
      .error ("GitHub commit failed (" ++ toString st ++ "): " ++ body)

/-- `getBooksJson` (`src/server.js` lines 84–92): 404 means an empty catalog
with no revision; any other non-2xx throws; the decoded content is
`JSON.parse`d (throwing on malformed JSON) and non-arrays are replaced by
`[]` via `Array.isArray(books) ? books : []`. -/
def getBooksJson : CatalogFetch → Except String (List Book × Option String)
  | .notFound => .ok ([], none)
  | .httpError st => .error ("Failed to fetch books.json: " ++ toString st)
  | .ok content sha =>
    match content with
    | .malformed m => .error m
    | .jsonNonArray => .ok ([], some sha)
    | .jsonArray bs => .ok (bs, some sha)

/-- The genre→color table (`src/server.js` lines 108–114), as an
own-property lookup table (the prototype chain is not modelled). -/
def genreColors : List (String × String) :=
  [("Fiction", "#9c3d2e"), ("Non-Fiction", "#556b55"), ("Science", "#3a4a5a"),
   ("History", "#7a5a2a"), ("Philosophy", "#4a5a7a"), ("Biography", "#5a4570"),
   ("Poetry", "#7a4a2a"), ("Children", "#3a6b60"), ("Technology", "#2a5a6a"),
   ("Religion & Spirituality", "#6a5535"), ("Politics & Society", "#5a3a5a"),
   ("Art & Culture", "#6a3a4a"), ("Other", "#4a4a4a")]

/-- `b.id || 0`: a missing id and an id of 0 both coalesce to 0. -/
def jsIdOrZero (b : Book) : Int :=
  match b.id with
  | some n => if n = 0 then 0 else n
  | none => 0

/-- `books.length > 0 ? Math.max(...books.map(b => b.id || 0)) + 1 : 1`
(`src/server.js` line 153). -/
def nextId : List Book → Int
  | [] => 1
  | b :: bs => (bs.map jsIdOrZero).foldl max (jsIdOrZero b) + 1

/-- `(req.file.size / (1024 * 1024)).toFixed(1) + ' MB'`
(`src/server.js` line 145), with `toFixed(1)` modelled as exact decimal
rounding (half up) of the megabyte value. -/
def fileSizeString (bytes : Nat) : String :=
  let tenths := (bytes * 10 + 524288) / 1048576
  toString (tenths / 10) ++ "." ++ toString (tenths % 10) ++ " MB"

/-- Node `path.extname` for file names without path separators: the suffix
from the last `.`, empty when there is no `.` or the only `.` leads the name
(and for the special names `.` and `..`). -/
def extname (s : String) : String :=
  if s = "." ∨ s = ".." then ""
  else
    let rev := s.data.reverse
    let pre := rev.takeWhile (fun c => !(c == '.'))
    if pre.length = rev.length then ""
    else if pre.length + 1 = rev.length then ""
    else ⟨'.' :: pre.reverse⟩

/-- A JSON HTTP response: the status code plus the fields the routes emit
(absent fields are `none`). -/
structure ApiResponse where
  status : Nat := 200
  success : Bool
  error : Option String := none
  message : Option String := none
  book : Option Book := none
  total : Option Nat := none
  count : Option Nat := none
  books : Option (List Book) := none
  removed : Option Book := none
deriving DecidableEq

/-- The uploaded file as multer delivers it (`req.file`). -/
structure UploadFile where
  originalname : String
  size : Nat
deriving DecidableEq

/-- The upload request.  Text fields model JavaScript falsiness: `""` stands
for both a missing and an empty form field. -/
structure UploadReq where
  file : Option UploadFile
  title : String
  author : String
  genre : String
  year : String
  language : String
  description : String
deriving DecidableEq

/-- The remote host's answers to the (at most) four round trips one upload
request makes, in source order: blob `GET`, blob `PUT`, catalog `GET`,
catalog `PUT`. -/
structure UploadEnv where
  blobFetch : BlobFetch
  blobPut : PutResult
  catalogFetch : CatalogFetch
  catalogPut : PutResult
deriving DecidableEq

/-- The `catch` response of `POST /api/upload` (`src/server.js` lines
176–179): `err.message || 'Upload failed. Please try again.'` with status
500. -/
def uploadErrResp (msg : String) : ApiResponse :=
  { status := 500, success := false,
    error := some (jsOrElse msg "Upload failed. Please try again.") }

/-- `POST /api/upload` (`src/server.js` lines 132–180).  Returns the
response and the trace of remote calls made, each write tagged with the
revision it presented.  `now` is `new Date().toISOString()`. -/
def uploadHandler (req : UploadReq) (env : UploadEnv) (now : String) :
    ApiResponse × List RemoteCall :=
  match req.file with
  | none => ({ status := 400, success := false, error := some "No file uploaded." }, [])
  | some f =>
    if req.title = "" then
      ({ status := 400, success := false, error := some "Title is required." }, [])
    else if req.author = "" then
      ({ status := 400, success := false, error := some "Author is required." }, [])
    else if req.genre = "" then
      ({ status := 400, success := false, error := some "Genre is required." }, [])
    else
      let ext := jsToLowerStr (extname f.originalname)
      let format := if ext = ".epub" then "EPUB" else "PDF"
      let filename := slugify req.title ++ "-" ++ slugify req.author ++ ext
      let filePath := "books/" ++ filename
      let fileSize := fileSizeString f.size
      match getFileSHA env.blobFetch with
      | .error msg => (uploadErrResp msg, [.getFile filePath])
      | .ok existingSHA =>
        match commitFileToGitHub env.blobPut with
        | .error msg =>
          (uploadErrResp msg,
           [.getFile filePath, .putFile filePath (presentedSha existingSHA)])
        | .ok _ =>
          match getBooksJson env.catalogFetch with
          | .error msg =>
            (uploadErrResp msg,
             [.getFile filePath, .putFile filePath (presentedSha existingSHA),
              .getFile "books.json"])
          | .ok (books, booksSHA) =>
            let newBook : Book :=
              { id := some (nextId books),
                title := jsTrimStr req.title,
                author := jsTrimStr req.author,
                genre := jsTrimStr req.genre,
                year := if req.year = "" then none else jsParseInt req.year,
                language := jsTrimStr (jsOrElse req.language "English"),
                size := fileSize,
                format := format,
                description := jsTrimStr req.description,
                file := filePath,
                color := jsOrOptStr (genreColors.lookup req.genre) "#4a4a4a",
                uploadedAt := now }
            let books2 := books ++ [newBook]
            match commitFileToGitHub env.catalogPut with
            | .error msg =>
              (uploadErrResp msg,
               [.getFile filePath, .putFile filePath (presentedSha existingSHA),
                .getFile "books.json", .putFile "books.json" (presentedSha booksSHA)])
            | .ok _ =>
              ({ status := 200, success := true,
                 message := some ("\"" ++ req.title ++ "\" has been added to the library!"),
                 book := some newBook, total := some books2.length },
               [.getFile filePath, .putFile filePath (presentedSha existingSHA),
                .getFile "books.json", .putFile "books.json" (presentedSha booksSHA)])

/-- `b.id === id` for the parsed route parameter (`none` models `NaN`, which
strict-compares unequal to everything, as does a missing `b.id`). -/
def bookIdMatches (parsed : Option Int) (b : Book) : Bool :=
  match parsed, b.id with
  | some n, some m => n == m
  | _, _ => false

/-- `books.findIndex(...)` followed by `books.splice(idx, 1)`: the first
matching entry and the remaining list, or `none` when `findIndex` gives
`-1`. -/
def removeFirst (p : Book → Bool) : List Book → Option (Book × List Book)
  | [] => none
  | b :: bs =>
    if p b then some (b, bs)
    else (removeFirst p bs).map (fun x => (x.1, b :: x.2))

/-- The remote host's answers for one delete request: catalog `GET`, then
catalog `PUT`. -/
structure DeleteEnv where
  catalogFetch : CatalogFetch
  catalogPut : PutResult
deriving DecidableEq

/-- `DELETE /api/books/:id` (`src/server.js` lines 182–198).  The
authorization header is compared with `Bearer <ADMIN_SECRET>` before
anything else; the `catch` returns `err.message` with no generic
fallback. -/
def deleteHandler (authHeader : Option String) (idParam : String)
    (adminSecret : String) (env : DeleteEnv) : ApiResponse × List RemoteCall :=
  if authHeader ≠ some ("Bearer " ++ adminSecret) then
    ({ status := 401, success := false, error := some "Unauthorized." }, [])
  else
    match getBooksJson env.catalogFetch with
    | .error msg =>
      ({ status := 500, success := false, error := some msg }, [.getFile "books.json"])
    | .ok (books, sha) =>
      match removeFirst (bookIdMatches (jsParseInt idParam)) books with
      | none =>
        ({ status := 404, success := false, error := some "Book not found." },
         [.getFile "books.json"])
      | some (removed, _) =>
        match commitFileToGitHub env.catalogPut with
        | .error msg =>
          ({ status := 500, success := false, error := some msg },
           [.getFile "books.json", .putFile "books.json" (presentedSha sha)])
        | .ok _ =>
          ({ status := 200, success := true,
             message := some ("\"" ++ removed.title ++ "\" removed."),
             removed := some removed },
           [.getFile "books.json", .putFile "books.json" (presentedSha sha)])

/-- `GET /api/books` (`src/server.js` lines 122–130): any error from
`getBooksJson` becomes a generic 500. -/
def listBooksHandler (catalogFetch : CatalogFetch) : ApiResponse × List RemoteCall :=
  match getBooksJson catalogFetch with
  | .error _ =>
    ({ status := 500, success := false, error := some "Failed to fetch books catalog." },
     [.getFile "books.json"])
  | .ok (books, _) =>
    ({ status := 200, success := true, count := some books.length, books := some books },
     [.getFile "books.json"])

/-! ## Claim theorems: validation and deletion -/

/-- C3: an upload request whose file, title, author or genre is absent or
empty (falsy) is rejected with a 400 field-specific error before any remote
call: the call trace is empty, so neither the blob nor the catalog is read
or written.  The checks run in source order: file, then title, author,
genre. -/
theorem upload_validation_rejects_before_remote_calls
    (req : UploadReq) (env : UploadEnv) (now : String) :
    (req.file = none →
      uploadHandler req env now =
        ({ status := 400, success := false, error := some "No file uploaded." }, [])) ∧
    (req.file ≠ none → req.title = "" →
      uploadHandler req env now =
        ({ status := 400, success := false, error := some "Title is required." }, [])) ∧
    (req.file ≠ none → req.title ≠ "" → req.author = "" →
      uploadHandler req env now =
        ({ status := 400, success := false, error := some "Author is required." }, [])) ∧
    (req.file ≠ none → req.title ≠ "" → req.author ≠ "" → req.genre = "" →
      uploadHandler req env now =
        ({ status := 400, success := false, error := some "Genre is required." }, [])) := by
  refine ⟨?_, ?_, ?_, ?_⟩
  · intro h
    simp [uploadHandler, h]
  · intro h1 h2
    obtain ⟨f, hf⟩ := Option.ne_none_iff_exists'.mp h1
    simp [uploadHandler, hf, h2]
  · intro h1 h2 h3
    obtain ⟨f, hf⟩ := Option.ne_none_iff_exists'.mp h1
    simp [uploadHandler, hf, h2, h3]
  · intro h1 h2 h3 h4
    obtain ⟨f, hf⟩ := Option.ne_none_iff_exists'.mp h1
    simp [uploadHandler, hf, h2, h3, h4]

theorem removeFirst_eq_none {p : Book → Bool} :
    ∀ {l : List Book}, (∀ b ∈ l, p b = false) → removeFirst p l = none := by
  intro l
  induction l with
  | nil => intro _; rfl
  | cons b bs ih =>
    intro h
    simp only [removeFirst]
    rw [if_neg (by simp [h b (List.mem_cons_self b bs)]),
      ih (fun x hx => h x (List.mem_cons_of_mem b hx))]
    rfl

/-- C4: a delete request whose credential is not exactly
`Bearer <ADMIN_SECRET>` gets a 401 with an empty call trace (decided before
any remote store access, so independent of whether the id exists); with a
matching credential but no catalog entry matching the parsed id, it gets a
404 after only the catalog read — in both cases no write is issued, so the
stored catalog is unchanged. -/
theorem delete_unauthorized_and_notfound
    (authHeader : Option String) (idParam : String) (secret : String)
    (env : DeleteEnv) :
    (authHeader ≠ some ("Bearer " ++ secret) →
      deleteHandler authHeader idParam secret env =
        ({ status := 401, success := false, error := some "Unauthorized." }, [])) ∧
    (authHeader = some ("Bearer " ++ secret) →
      ∀ books sha, getBooksJson env.catalogFetch = .ok (books, sha) →
        (∀ b ∈ books, bookIdMatches (jsParseInt idParam) b = false) →
        deleteHandler authHeader idParam secret env =
          ({ status := 404, success := false, error := some "Book not found." },
           [.getFile "books.json"])) := by
  constructor
  · intro h
    simp [deleteHandler, h]
  · intro h books sha hcat hnone
    simp [deleteHandler, h, hcat, removeFirst_eq_none hnone]

/-! ## Claim theorems: id allocation -/

/-- The catalog entry carries a positive integer id. -/
def hasPosId (b : Book) : Bool :=
  match b.id with
  | some n => decide (0 < n)
  | none => false

theorem id_eq_jsIdOrZero_of_pos {b : Book} (h : hasPosId b = true) :
    b.id = some (jsIdOrZero b) ∧ 0 < jsIdOrZero b := by
  cases hb : b.id with
  | none => simp [hasPosId, hb] at h
  | some n =>
    simp only [hasPosId, hb, decide_eq_true_eq] at h
    simp only [jsIdOrZero, hb]
    rw [if_neg (by omega)]
    exact ⟨rfl, h⟩

theorem le_foldl_max (l : List Int) (a : Int) :
    a ≤ l.foldl max a ∧ ∀ x ∈ l, x ≤ l.foldl max a := by
  induction l generalizing a with
  | nil => exact ⟨le_refl a, by simp⟩
  | cons y t ih =>
    rw [List.foldl_cons]
    constructor
    · exact le_trans (le_max_left a y) (ih (max a y)).1
    · intro x hx
      rcases List.mem_cons.mp hx with h | h
      · subst h
        exact le_trans (le_max_right a x) (ih (max a x)).1
      · exact (ih (max a y)).2 x h

theorem foldl_max_mem (l : List Int) (a : Int) :
    l.foldl max a = a ∨ l.foldl max a ∈ l := by
  induction l generalizing a with
  | nil => exact Or.inl rfl
  | cons y t ih =>
    rw [List.foldl_cons]
    rcases ih (max a y) with h | h
    · rcases max_cases a y with ⟨h1, _⟩ | ⟨h1, _⟩
      · left; rw [h, h1]
      · right; rw [h, h1]; exact List.mem_cons_self y t
    · exact Or.inr (List.mem_cons_of_mem y h)

/-- C2: when every fetched catalog entry carries a positive integer id, the
allocated id is 1 for an empty catalog, `max(existing ids) + 1` otherwise,
and in consequence strictly greater than every existing id. -/
theorem nextId_allocates_fresh_id (books : List Book)
    (h : books.all hasPosId = true) :
    (books = [] → nextId books = 1) ∧
    (books ≠ [] → ∃ m : Int, (∃ b ∈ books, b.id = some m) ∧
      (∀ b ∈ books, ∀ n : Int, b.id = some n → n ≤ m) ∧
      nextId books = m + 1) ∧
    (∀ b ∈ books, ∀ n : Int, b.id = some n → n < nextId books) := by
  have hpos : ∀ b ∈ books, hasPosId b = true := List.all_eq_true.mp h
  match books with
  | [] =>
    refine ⟨fun _ => rfl, fun hne => absurd rfl hne, ?_⟩
    intro b hb
    simp at hb
  | b0 :: bs =>
    have hub := le_foldl_max (bs.map jsIdOrZero) (jsIdOrZero b0)
    have hne : ∀ b ∈ b0 :: bs, ∀ n : Int, b.id = some n →
        n ≤ (bs.map jsIdOrZero).foldl max (jsIdOrZero b0) := by
      intro b hb n hn
      have hid := (id_eq_jsIdOrZero_of_pos (hpos b hb)).1
      rw [hn] at hid
      have hval : n = jsIdOrZero b := Option.some.inj hid
      subst hval
      rcases List.mem_cons.mp hb with h1 | h1
      · subst h1; exact hub.1
      · exact hub.2 _ (List.mem_map_of_mem jsIdOrZero h1)
    refine ⟨fun hcon => by simp at hcon, fun _ => ?_, ?_⟩
    · refine ⟨(bs.map jsIdOrZero).foldl max (jsIdOrZero b0), ?_, hne, rfl⟩
      rcases foldl_max_mem (bs.map jsIdOrZero) (jsIdOrZero b0) with h1 | h1
      · refine ⟨b0, List.mem_cons_self b0 bs, ?_⟩
        rw [h1]
        exact (id_eq_jsIdOrZero_of_pos (hpos b0 (List.mem_cons_self b0 bs))).1
      · obtain ⟨b, hb, hbeq⟩ := List.mem_map.mp h1
        refine ⟨b, List.mem_cons_of_mem b0 hb, ?_⟩
        rw [← hbeq]
        exact (id_eq_jsIdOrZero_of_pos (hpos b (List.mem_cons_of_mem b0 hb))).1
    · intro b hb n hn
      have := hne b hb n hn
      show n < (bs.map jsIdOrZero).foldl max (jsIdOrZero b0) + 1
      omega

/-! ## Claim theorems: revision-checked catalog writes -/

theorem books_json_ne_blob_path (rest : String) :
    ("books.json" : String) ≠ "books/" ++ rest := by
  intro h
  have h2 : ("books.json" : String).data = ("books/" ++ rest).data :=
    congrArg String.data h
  have e2 : ("books/" ++ rest).data =
      'b' :: 'o' :: 'o' :: 'k' :: 's' :: '/' :: rest.data := by
    cases rest
    rfl
  rw [e2] at h2
  have e1 : ("books.json" : String).data = ['b','o','o','k','s','.','j','s','o','n'] := rfl
  rw [e1] at h2
  simp at h2

theorem presentedSha_some_of_ne {sha : String} (h : sha ≠ "") :
    presentedSha (some sha) = some sha := by
  simp [presentedSha, jsTruthyStr, String.isEmpty_iff, h]

/-- C1: every write of the catalog document (`books.json`) presents exactly
the revision token returned by the catalog fetch of the same request, and a
write presenting no token is issued only when that fetch reported the catalog
absent — for every upload and every delete request reaching the catalog-write
step.  The side hypothesis states that the store's revision tokens are
nonempty strings (as GitHub SHAs are); an empty token would be dropped by the
JavaScript truthiness test `...(sha ? { sha } : {})`. -/
theorem catalog_write_presents_fetched_revision (sh : Option String) :
    (∀ req env now, RemoteCall.putFile "books.json" sh ∈ (uploadHandler req env now).2 →
      (∀ c sha, env.catalogFetch = .ok c sha → sha ≠ "") →
      (env.catalogFetch = CatalogFetch.notFound ∧ sh = none) ∨
      (∃ c sha, env.catalogFetch = CatalogFetch.ok c sha ∧ sh = some sha)) ∧
    (∀ authHeader idParam secret env,
      RemoteCall.putFile "books.json" sh ∈
        (deleteHandler authHeader idParam secret env).2 →
      (∀ c sha, env.catalogFetch = .ok c sha → sha ≠ "") →
      (env.catalogFetch = CatalogFetch.notFound ∧ sh = none) ∨
      (∃ c sha, env.catalogFetch = CatalogFetch.ok c sha ∧ sh = some sha)) := by
  have resolve : ∀ (env : CatalogFetch) (books : List Book) (booksSHA : Option String),
      getBooksJson env = .ok (books, booksSHA) →
      (∀ c sha, env = .ok c sha → sha ≠ "") →
      sh = presentedSha booksSHA →
      (env = CatalogFetch.notFound ∧ sh = none) ∨
      (∃ c sha, env = CatalogFetch.ok c sha ∧ sh = some sha) := by
    intro env books booksSHA hcat hne hsh
    cases env with
    | notFound =>
      simp only [getBooksJson, Except.ok.injEq, Prod.mk.injEq] at hcat
      left
      rw [hsh, ← hcat.2]
      exact ⟨rfl, rfl⟩
    | httpError st => simp [getBooksJson] at hcat
    | ok c sha =>
      cases c with
      | malformed m => simp [getBooksJson] at hcat
      | jsonNonArray =>
        simp only [getBooksJson, Except.ok.injEq, Prod.mk.injEq] at hcat
        right
        refine ⟨.jsonNonArray, sha, rfl, ?_⟩
        rw [hsh, ← hcat.2, presentedSha_some_of_ne (hne _ sha rfl)]
      | jsonArray bs =>
        simp only [getBooksJson, Except.ok.injEq, Prod.mk.injEq] at hcat
        right
        refine ⟨.jsonArray bs, sha, rfl, ?_⟩
        rw [hsh, ← hcat.2, presentedSha_some_of_ne (hne _ sha rfl)]
  constructor
  · intro req env now h hne
    rcases hfile : req.file with _ | f
    · simp [uploadHandler, hfile] at h
    · by_cases ht : req.title = ""
      · simp [uploadHandler, hfile, ht] at h
      · by_cases ha : req.author = ""
        · simp [uploadHandler, hfile, ht, ha] at h
        · by_cases hg : req.genre = ""
          · simp [uploadHandler, hfile, ht, ha, hg] at h
          · cases hsha : getFileSHA env.blobFetch with
            | error msg => simp [uploadHandler, hfile, ht, ha, hg, hsha] at h
            | ok ex =>
              cases hbp : commitFileToGitHub env.blobPut with
              | error msg =>
                simp [uploadHandler, hfile, ht, ha, hg, hsha, hbp] at h
                exact absurd h.1 (books_json_ne_blob_path _)
              | ok u =>
                cases hcat : getBooksJson env.catalogFetch with
                | error msg =>
                  simp [uploadHandler, hfile, ht, ha, hg, hsha, hbp, hcat] at h
                  exact absurd h.1 (books_json_ne_blob_path _)
                | ok pair =>
                  obtain ⟨books, booksSHA⟩ := pair
                  cases hcp : commitFileToGitHub env.catalogPut with
                  | error msg =>
                    simp [uploadHandler, hfile, ht, ha, hg, hsha, hbp, hcat, hcp] at h
                    rcases h with ⟨hbad, _⟩ | hsh
                    · exact absurd hbad (books_json_ne_blob_path _)
                    · exact resolve env.catalogFetch books booksSHA hcat hne hsh
                  | ok u2 =>
                    simp [uploadHandler, hfile, ht, ha, hg, hsha, hbp, hcat, hcp] at h
                    rcases h with ⟨hbad, _⟩ | hsh
                    · exact absurd hbad (books_json_ne_blob_path _)
                    · exact resolve env.catalogFetch books booksSHA hcat hne hsh
  · intro authHeader idParam secret env h hne
    by_cases hauth : authHeader = some ("Bearer " ++ secret)
    · cases hcat : getBooksJson env.catalogFetch with
      | error msg => simp [deleteHandler, hauth, hcat] at h
      | ok pair =>
        obtain ⟨books, sha0⟩ := pair
        cases hrem : removeFirst (bookIdMatches (jsParseInt idParam)) books with
        | none => simp [deleteHandler, hauth, hcat, hrem] at h
        | some out =>
          obtain ⟨removed, rest⟩ := out
          cases hcp : commitFileToGitHub env.catalogPut with
          | error msg =>
            simp [deleteHandler, hauth, hcat, hrem, hcp] at h
            exact resolve env.catalogFetch books sha0 hcat hne h
          | ok u =>
            simp [deleteHandler, hauth, hcat, hrem, hcp] at h
            exact resolve env.catalogFetch books sha0 hcat hne h
    · simp [deleteHandler, hauth] at h

/-! ## Claim theorems: derived upload fields -/

/-- C7: for every valid upload running against a store where all four calls
succeed, the stored entry's file path is `books/` + `slugify(title)` + `-` +
`slugify(author)` + the lowercased original extension, and its format is
`EPUB` exactly for `.epub` and `PDF` otherwise. -/
theorem upload_file_path_and_format
    (req : UploadReq) (env : UploadEnv) (now : String) (f : UploadFile)
    (hfile : req.file = some f) (ht : req.title ≠ "") (ha : req.author ≠ "")
    (hg : req.genre ≠ "") (ex : Option String)
    (hsha : getFileSHA env.blobFetch = .ok ex)
    (hbp : commitFileToGitHub env.blobPut = .ok ())
    (books : List Book) (booksSHA : Option String)
    (hcat : getBooksJson env.catalogFetch = .ok (books, booksSHA))
    (hcp : commitFileToGitHub env.catalogPut = .ok ()) :
    (uploadHandler req env now).1.book.map Book.file =
      some ("books/" ++ (slugify req.title ++ "-" ++ slugify req.author ++
        jsToLowerStr (extname f.originalname))) ∧
    (uploadHandler req env now).1.book.map Book.format =
      some (if jsToLowerStr (extname f.originalname) = ".epub"
        then "EPUB" else "PDF") ∧
    (uploadHandler req env now).2 =
      [.getFile ("books/" ++ (slugify req.title ++ "-" ++ slugify req.author ++
          jsToLowerStr (extname f.originalname))),
       .putFile ("books/" ++ (slugify req.title ++ "-" ++ slugify req.author ++
          jsToLowerStr (extname f.originalname))) (presentedSha ex),
       .getFile "books.json",
       .putFile "books.json" (presentedSha booksSHA)] := by
  refine ⟨?_, ?_, ?_⟩ <;>
    simp [uploadHandler, hfile, ht, ha, hg, hsha, hbp, hcat, hcp]

/-- A happy-path upload request used for concrete instances. -/
def mobyReq : UploadReq :=
  { file := some { originalname := "MobyDick.PDF", size := 1048576 },
    title := "Moby Dick", author := "Herman Melville", genre := "Fiction",
    year := "", language := "", description := "" }

/-- A remote environment where every call succeeds, starting from an empty
catalog at revision `abc123`. -/
def happyUploadEnv : UploadEnv :=
  { blobFetch := .notFound, blobPut := .ok,
    catalogFetch := .ok (.jsonArray []) "abc123", catalogPut := .ok }

/-- C7 witness: the Moby Dick example — the stored entry has
`file = "books/moby-dick-herman-melville.pdf"` and `format = "PDF"`. -/
theorem upload_file_path_and_format_witness :
    (uploadHandler mobyReq happyUploadEnv "T").1.book.map Book.file =
      some "books/moby-dick-herman-melville.pdf" ∧
    (uploadHandler mobyReq happyUploadEnv "T").1.book.map Book.format =
      some "PDF" := by
  have h := upload_file_path_and_format mobyReq happyUploadEnv "T"
    { originalname := "MobyDick.PDF", size := 1048576 } rfl (by decide)
    (by decide) (by decide) none rfl rfl [] (some "abc123") rfl rfl
  exact ⟨h.1.trans (by decide), h.2.1.trans (by decide)⟩

/-- C8 (amended): the stored color is looked up from the raw, untrimmed
genre exactly as submitted — `genreColors[req.genre] || "#4a4a4a"` — while
the stored genre field is the trimmed text.  When the submitted genre has no
surrounding whitespace the two coincide; a padded genre that trims to a
table key still gets the default color. -/
theorem upload_color_from_raw_genre
    (req : UploadReq) (env : UploadEnv) (now : String) (f : UploadFile)
    (hfile : req.file = some f) (ht : req.title ≠ "") (ha : req.author ≠ "")
    (hg : req.genre ≠ "") (ex : Option String)
    (hsha : getFileSHA env.blobFetch = .ok ex)
    (hbp : commitFileToGitHub env.blobPut = .ok ())
    (books : List Book) (booksSHA : Option String)
    (hcat : getBooksJson env.catalogFetch = .ok (books, booksSHA))
    (hcp : commitFileToGitHub env.catalogPut = .ok ()) :
    (uploadHandler req env now).1.book.map Book.color =
      some (jsOrOptStr (genreColors.lookup req.genre) "#4a4a4a") ∧
    (uploadHandler req env now).1.book.map Book.genre =
      some (jsTrimStr req.genre) := by
  constructor <;> simp [uploadHandler, hfile, ht, ha, hg, hsha, hbp, hcat, hcp]

/-- The Moby Dick request with the genre padded by spaces. -/
def paddedGenreReq : UploadReq :=
  { mobyReq with genre := " Fiction " }

/-- C8 counterexample: uploading with genre `" Fiction "` stores the trimmed
genre `"Fiction"`, which the table maps to `"#9c3d2e"`, yet the stored color
is the default `"#4a4a4a"` — the lookup used the raw untrimmed submission,
not the stored (trimmed) genre field. -/
theorem upload_color_not_from_trimmed_genre_cex :
    (uploadHandler paddedGenreReq happyUploadEnv "T").1.book.map Book.genre =
      some "Fiction" ∧
    genreColors.lookup "Fiction" = some "#9c3d2e" ∧
    (uploadHandler paddedGenreReq happyUploadEnv "T").1.book.map Book.color =
      some "#4a4a4a" := by
  refine ⟨by decide, rfl, by decide⟩

/-- C8 witness: for the unpadded genre `"Fiction"` the looked-up color is
the table entry. -/
theorem upload_color_from_raw_genre_witness :
    (uploadHandler mobyReq happyUploadEnv "T").1.book.map Book.color =
      some "#9c3d2e" ∧
    (uploadHandler mobyReq happyUploadEnv "T").1.book.map Book.genre =
      some "Fiction" := by
  have h := upload_color_from_raw_genre mobyReq happyUploadEnv "T"
    { originalname := "MobyDick.PDF", size := 1048576 } rfl (by decide)
    (by decide) (by decide) none rfl rfl [] (some "abc123") rfl rfl
  exact ⟨h.1.trans (by decide), h.2.trans (by decide)⟩

/-! ## Claim theorems: error propagation -/

theorem append_ne_empty_left {s : String} (t : String) (h : s ≠ "") :
    s ++ t ≠ "" := by
  intro he
  apply h
  have e : (s ++ t).data = s.data ++ t.data := by
    cases s; cases t; rfl
  have h2 : s.data ++ t.data = [] := by
    rw [← e]
    exact congrArg String.data he
  have h3 : s.data = [] := (List.append_eq_nil.mp h2).1
  cases s with
  | mk d => rw [show d = [] from h3]

/-- C9 (amended): an unexpected remote-store failure is caught per request
and turned into a uniform `{success:false, error}` 500 response, but the
error text sent to the client is the underlying error's message — which
embeds the remote host's status code and response body — not a generic
message.  The upload route's `err.message || …` fallback only applies to an
empty message, and the delete route sends `err.message` with no fallback at
all.  (Details are additionally logged server-side; logging is not
modelled.) -/
theorem store_failure_response_carries_details
    (st : Nat) (body : String) :
    (∀ req env now f, req.file = some f → req.title ≠ "" →
      req.author ≠ "" → req.genre ≠ "" →
      ∀ ex, getFileSHA env.blobFetch = .ok ex →
      env.blobPut = PutResult.httpError st body →
      (uploadHandler req env now).1 =
        { status := 500, success := false,
          error := some ("GitHub commit failed (" ++ toString st ++ "): " ++ body) }) ∧
    (∀ authHeader idParam secret (env : DeleteEnv) books sha removed rest,
      authHeader = some ("Bearer " ++ secret) →
      getBooksJson env.catalogFetch = .ok (books, sha) →
      removeFirst (bookIdMatches (jsParseInt idParam)) books = some (removed, rest) →
      env.catalogPut = PutResult.httpError st body →
      (deleteHandler authHeader idParam secret env).1 =
        { status := 500, success := false,
          error := some ("GitHub commit failed (" ++ toString st ++ "): " ++ body) }) := by
  have hne : ("GitHub commit failed (" ++ toString st ++ "): " ++ body) ≠ "" :=
    append_ne_empty_left _ (append_ne_empty_left _
      (append_ne_empty_left _ (by decide)))
  constructor
  · intro req env now f hfile ht ha hg ex hsha hbp
    simp [uploadHandler, hfile, ht, ha, hg, hsha, hbp, commitFileToGitHub,
      uploadErrResp, jsOrElse, hne]
  · intro authHeader idParam secret env books sha removed rest hauth hcat hrem hcp
    simp [deleteHandler, hauth, hcat, hrem, hcp, commitFileToGitHub]

/-- The happy environment with the blob commit failing with a 403 whose
response body carries internal detail. -/
def leakingEnv : UploadEnv :=
  { happyUploadEnv with blobPut := .httpError 403 "secret internal detail" }

/-- C9 counterexample: with the blob commit failing `403` with body
`"secret internal detail"`, the client-visible error text equals
`"GitHub commit failed (403): secret internal detail"` — it embeds the
remote status and body and is not the generic
`"Upload failed. Please try again."`. -/
theorem store_failure_leaks_details_cex :
    (uploadHandler mobyReq leakingEnv "T").1.error =
      some "GitHub commit failed (403): secret internal detail" ∧
    (uploadHandler mobyReq leakingEnv "T").1.error ≠
      some "Upload failed. Please try again." := by
  refine ⟨by decide, by decide⟩

/-- C9 witness: concrete application of the amended theorem. -/
theorem store_failure_response_witness :
    (uploadHandler mobyReq leakingEnv "T").1 =
      { status := 500, success := false,
        error := some ("GitHub commit failed (" ++ toString 403 ++ "): " ++
          "secret internal detail") } :=
  (store_failure_response_carries_details 403 "secret internal detail").1
    mobyReq leakingEnv "T" { originalname := "MobyDick.PDF", size := 1048576 }
    rfl (by decide) (by decide) (by decide) none rfl rfl

/-! ## Claim theorems: malformed catalog content -/

/-- C10 (amended): if the catalog document exists but its content is not
well-formed JSON (`JSON.parse` throws), each of list, upload and delete
fails with a 500 `{success:false}` response; but if the content is
well-formed JSON that is *not* an array, the operations do not fail —
`Array.isArray(books) ? books : []` silently proceeds with an empty
catalog. -/
theorem malformed_catalog_fails_but_nonarray_proceeds
    (sha msg : String) :
    ((listBooksHandler (.ok (.malformed msg) sha)).1 =
      { status := 500, success := false,
        error := some "Failed to fetch books catalog." }) ∧
    (∀ req env now f, req.file = some f → req.title ≠ "" →
      req.author ≠ "" → req.genre ≠ "" →
      ∀ ex, getFileSHA env.blobFetch = .ok ex →
      commitFileToGitHub env.blobPut = .ok () →
      env.catalogFetch = CatalogFetch.ok (.malformed msg) sha →
      (uploadHandler req env now).1 = uploadErrResp msg) ∧
    (∀ authHeader idParam secret (env : DeleteEnv),
      authHeader = some ("Bearer " ++ secret) →
      env.catalogFetch = CatalogFetch.ok (.malformed msg) sha →
      (deleteHandler authHeader idParam secret env).1 =
        { status := 500, success := false, error := some msg }) ∧
    ((listBooksHandler (.ok .jsonNonArray sha)).1 =
      { status := 200, success := true, count := some 0, books := some [] }) := by
  refine ⟨by simp [listBooksHandler, getBooksJson], ?_, ?_, by simp [listBooksHandler, getBooksJson]⟩
  · intro req env now f hfile ht ha hg ex hsha hbp hcf
    simp [uploadHandler, hfile, ht, ha, hg, hsha, hbp, hcf, getBooksJson]
  · intro authHeader idParam secret env hauth hcf
    simp [deleteHandler, hauth, hcf, getBooksJson]

/-- C10 counterexample: a catalog document whose content is well-formed JSON
but not an array (`Array.isArray` false) does not make the read fail — the
list operation proceeds and answers 200 with an empty catalog, not a
500-class store error. -/
theorem nonarray_catalog_proceeds_cex :
    (listBooksHandler (.ok .jsonNonArray "d41d8cd9")).1 =
      { status := 200, success := true, count := some 0, books := some [] } := by
  rfl

/-- C10 witness: concrete malformed-JSON catalog content makes the list
operation fail with the generic 500. -/
theorem malformed_catalog_witness :
    (listBooksHandler (.ok (.malformed "Unexpected token x in JSON") "abc")).1 =
      { status := 500, success := false,
        error := some "Failed to fetch books catalog." } :=
  (malformed_catalog_fails_but_nonarray_proceeds "abc"
    "Unexpected token x in JSON").1

/-! ## Remaining witnesses -/

/-- C1 witness: a concrete upload against a catalog fetched at revision
`abc123` — the catalog write is in the trace and presents exactly that
token. -/
theorem catalog_write_revision_witness :
    RemoteCall.putFile "books.json" (some "abc123") ∈
      (uploadHandler mobyReq happyUploadEnv "T").2 ∧
    ((happyUploadEnv.catalogFetch = CatalogFetch.notFound ∧
        (some "abc123" : Option String) = none) ∨
      (∃ c sha, happyUploadEnv.catalogFetch = CatalogFetch.ok c sha ∧
        (some "abc123" : Option String) = some sha)) := by
  have hmem : RemoteCall.putFile "books.json" (some "abc123") ∈
      (uploadHandler mobyReq happyUploadEnv "T").2 := by decide
  refine ⟨hmem, ?_⟩
  refine (catalog_write_presents_fetched_revision (some "abc123")).1
    mobyReq happyUploadEnv "T" hmem ?_
  intro c sha h
  injection h with h1 h2
  subst h2
  decide

/-- C2 witness: the empty catalog allocates 1, and in a catalog whose
largest id is 3 the allocated id is strictly greater than 3. -/
theorem nextId_allocates_fresh_id_witness :
    nextId [] = 1 ∧
    (3 : Int) < nextId
      [{ id := some 3, title := "t", author := "a", genre := "g", year := none,
         language := "l", size := "s", format := "PDF", description := "",
         file := "f", color := "c", uploadedAt := "u" },
       { id := some 1, title := "t2", author := "a2", genre := "g2", year := none,
         language := "l", size := "s", format := "PDF", description := "",
         file := "f2", color := "c", uploadedAt := "u" }] := by
  constructor
  · exact (nextId_allocates_fresh_id [] (by decide)).1 rfl
  · exact (nextId_allocates_fresh_id _ (by decide)).2.2 _
      (List.mem_cons_self _ _) 3 rfl

/-- C3 witness: four concrete invalid uploads, one per missing field, each
rejected 400 with the field-specific message and an empty call trace. -/
theorem upload_validation_witness :
    uploadHandler
      { file := none, title := "T", author := "A", genre := "G",
        year := "", language := "", description := "" }
      happyUploadEnv "T" =
      ({ status := 400, success := false, error := some "No file uploaded." }, []) ∧
    uploadHandler { mobyReq with title := "" } happyUploadEnv "T" =
      ({ status := 400, success := false, error := some "Title is required." }, []) ∧
    uploadHandler { mobyReq with author := "" } happyUploadEnv "T" =
      ({ status := 400, success := false, error := some "Author is required." }, []) ∧
    uploadHandler { mobyReq with genre := "" } happyUploadEnv "T" =
      ({ status := 400, success := false, error := some "Genre is required." }, []) := by
  refine ⟨?_, ?_, ?_, ?_⟩
  · exact (upload_validation_rejects_before_remote_calls _ _ _).1 rfl
  · exact (upload_validation_rejects_before_remote_calls _ _ _).2.1
      (by decide) rfl
  · exact (upload_validation_rejects_before_remote_calls _ _ _).2.2.1
      (by decide) (by decide) rfl
  · exact (upload_validation_rejects_before_remote_calls _ _ _).2.2.2
      (by decide) (by decide) (by decide) rfl

/-- C4 witness: a wrong credential gives 401 with no remote calls; the right
credential with an id absent from the catalog gives 404 after only the
catalog read. -/
theorem delete_unauthorized_and_notfound_witness :
    deleteHandler (some "Bearer wrong") "7" "secret"
      { catalogFetch := .ok (.jsonArray []) "abc", catalogPut := .ok } =
      ({ status := 401, success := false, error := some "Unauthorized." }, []) ∧
    deleteHandler (some "Bearer secret") "7" "secret"
      { catalogFetch := .ok (.jsonArray []) "abc", catalogPut := .ok } =
      ({ status := 404, success := false, error := some "Book not found." },
       [.getFile "books.json"]) := by
  constructor
  · exact (delete_unauthorized_and_notfound _ _ _ _).1 (by decide)
  · refine (delete_unauthorized_and_notfound _ _ _ _).2 rfl [] (some "abc") rfl ?_
    intro b hb
    simp at hb
